import Mathlib

/-!
Verification of the aggregation/reporting engine of the gilfinnas
dashboard-backend repository.  The repository ships four variants of the
core function `getDashboardDataForUser`:

* variant 1 (first half of `server.js`): taxonomy-driven aggregation with
  a recent-transactions feed, per-group expense composition restricted to
  the current year, monthly breakdown over all years, YTD KPIs;
* variant 2 (second half of `server.js`): taxonomy-driven aggregation with
  an expense-trend breakdown, full (unfiltered) per-category sums, YTD net
  profit;
* variant P0 (`unnamed/part_000`): revenue-only aggregation keyed on
  category-name substrings, feed taken as `slice(-5).reverse()`;
* variant P1 (`unnamed/part_001`): flat `transactions`-array processing
  with error handling for a missing user and a malformed field, and a
  TypeError escape on `null`/`undefined` array elements (the
  `transaction.id` read of its push loop is unguarded).

Embedding conventions:
* JavaScript numbers are modelled as `Int`; the ledgers hold integral
  amounts and no claim depends on fractional or floating-point behaviour,
  so `Math.round` is the identity on this domain.
* A raw daily value is either a number or `JVal.nonnum`, which stands for
  every value whose `Number(v) || 0` coercion is `0` (undefined holes,
  non-numeric strings, `null`, `NaN`, objects).
* JavaScript objects are modelled as association lists in key-insertion
  order; object keys are unique, and integer-like keys (years, month
  indexes) iterate in ascending numeric order, which theorems assume as
  explicit hypotheses where it matters.
* `new Date(year, monthIndex, day + 1)` values are ordered by the
  lexicographic order on `(year, monthIndex, day)`; this matches the
  millisecond order of the constructed dates for calendar-valid
  components (month index 0 to 11, day index within the month).
-/

namespace Dashboard

/-- A raw daily ledger value as the code observes it: a JavaScript number,
or `nonnum` standing for any value that the coercion `Number(v) || 0`
sends to `0`. -/
inductive JVal where
  | num (x : Int)
  | nonnum
deriving DecidableEq

/-- The coercion `Number(value) || 0` applied throughout the source. -/
def jnum : JVal → Int
  | .num x => x
  | .nonnum => 0

/-- The reduction `arr.reduce((s, v) => s + (Number(v) || 0), 0)` used by
variant 2, variant P0 and the YTD blocks of variant 1. -/
def reduceSum (l : List JVal) : Int :=
  l.foldl (fun s v => s + jnum v) 0

/-- The positive-only accumulation of variant 1's main loop, which adds a
daily value only under `if (numValue > 0)`. -/
def posSum (l : List JVal) : Int :=
  l.foldl (fun s v => if 0 < jnum v then s + jnum v else s) 0

/-- A month record's `categories` object: category key to daily values. -/
abbrev CatMap := List (String × List JVal)

/-- One month record of the raw ledger, `{ categories, customNames }`,
both fields optional as in the source's `monthData.categories || {}` and
`monthData.customNames || {}` defaulting. -/
structure MonthRecord where
  categories : Option CatMap
  customNames : Option (List (String × String))
deriving DecidableEq

/-- The defaulting access `monthData.categories || {}`. -/
def catsOf (m : MonthRecord) : CatMap :=
  m.categories.getD []

/-- The lookup `categoriesData[catKey] || []`. -/
def dailyOf (cats : CatMap) (k : String) : List JVal :=
  match cats.find? (fun e => e.1 == k) with
  | some e => e.2
  | none => []

/-- The label fallback `catKey.replace(/_/g, " ")`: every underscore
character replaced by a space. -/
def underscoresToSpaces (s : String) : String :=
  String.mk (s.data.map (fun c => if c = '_' then ' ' else c))

/-- The display label `customNames[catKey] || catKey.replace(/_/g, " ")`;
an empty custom name is falsy in JavaScript and also falls back. -/
def labelOf (m : MonthRecord) (k : String) : String :=
  match (m.customNames.getD []).find? (fun e => e.1 == k) with
  | some e => if e.2 = "" then underscoresToSpaces k else e.2
  | none => underscoresToSpaces k

/-- The raw per-user ledger `userData.years || {}`: year key (an
integer-like object key, modelled as `Nat`) to month index to month
record, in object-iteration order. -/
abbrev Ledger := List (Nat × List (Nat × MonthRecord))

/-- The flattening performed by the nested loops `for (const year in
yearsData) for (const monthIndex in yearsData[year])`. -/
def ledgerMonths (L : Ledger) : List (Nat × Nat × MonthRecord) :=
  L.flatMap (fun ym => ym.2.map (fun mm => (ym.1, mm.1, mm.2)))

/-! ## Variant 1 taxonomy (first half of `server.js`) -/

/-- The `categoriesDefinition` table of variant 1: group label to member
category keys, in source order. -/
def categoriesDefinition : List (String × List String) :=
  [("הכנסות", ["sales_cash", "sales_credit", "sales_cheques", "sales_transfer", "sales_other"]),
   ("הכנסות פטורות ממע\x27מ", ["exempt_sales_cash", "exempt_sales_credit", "exempt_sales_cheques", "exempt_sales_transfer", "exempt_sales_other"]),
   ("ספקים", ["supplier_1", "supplier_2", "supplier_3", "supplier_4", "supplier_5", "supplier_6", "supplier_7", "supplier_8", "supplier_9", "supplier_10"]),
   ("הוצאות משתנות", ["electricity", "water", "packaging", "marketing", "custom_var_1", "custom_var_2", "custom_var_3", "custom_var_4"]),
   ("הוצאות עם הכרה חלקית במע\x27מ", ["car_expenses", "phone_expenses", "partial_custom_1", "partial_custom_2"]),
   ("הלוואות", ["loan_1", "loan_2", "loan_3", "loan_4", "loan_5", "loan_6", "loan_7", "loan_8", "loan_9", "loan_10"]),
   ("הוצאות קבועות", ["rent", "arnona", "salaries", "insurance", "accounting", "communication", "software", "custom_fixed_1", "custom_fixed_2", "custom_fixed_3", "custom_fixed_4"]),
   ("תשלומים ומיסים", ["social_security", "income_tax", "vat_payment", "vat_field", "custom_tax_1", "custom_tax_2", "custom_tax_3", "custom_tax_4"]),
   ("הוצאות בלתי צפויות", ["misc"])]

/-- The concatenation `[...def["הכנסות"], ...def["הכנסות פטורות ממע׳מ"]]`
of variant 1's two income groups. -/
def allIncomeKeys : List String :=
  ["sales_cash", "sales_credit", "sales_cheques", "sales_transfer", "sales_other",
   "exempt_sales_cash", "exempt_sales_credit", "exempt_sales_cheques", "exempt_sales_transfer", "exempt_sales_other"]

/-- The `allExpenseKeys` of variant 1: every key of every group other than
the two income groups, in source order. -/
def allExpenseKeysV1 : List String :=
  (categoriesDefinition.filter
    (fun g => !(g.1 == "הכנסות" || g.1 == "הכנסות פטורות ממע\x27מ"))).flatMap (fun g => g.2)

/-- The expense groups iterated by variant 1's breakdown loop, which skips
a group when `allIncomeKeys.includes(keys[0])`. -/
def expenseGroupsV1 : List (String × List String) :=
  categoriesDefinition.filter (fun g => !(allIncomeKeys.contains (g.2.headD "")))

/-- Variant 1's `monthIncome`: over all income keys, daily values added
only when strictly positive. -/
def monthIncomeV1 (cats : CatMap) : Int :=
  allIncomeKeys.foldl (fun s k => s + posSum (dailyOf cats k)) 0

/-- Variant 1's per-group `groupSum`: positive daily values of the group's
keys. -/
def groupSumV1 (cats : CatMap) (keys : List String) : Int :=
  keys.foldl (fun s k => s + posSum (dailyOf cats k)) 0

/-- Variant 1's `monthExpense`: group sums added only under the source's
`if (groupSum > 0)` guard. -/
def monthExpenseV1 (cats : CatMap) : Int :=
  expenseGroupsV1.foldl
    (fun s g => if 0 < groupSumV1 cats g.2 then s + groupSumV1 cats g.2 else s) 0

/-- A variant 1 recent-transaction record.  The source stores
`date: new Date(year, monthIndex, day + 1)`; the embedding keeps the
`(year, month, day)` components that determine that date (they are also
encoded in the `id` string), and additionally keeps the generating
category key, which the source embeds in `id` as well. -/
structure TxV1 where
  id : String
  description : String
  amount : Int
  type : String
  catKey : String
  year : Nat
  month : Nat
  day : Nat
deriving DecidableEq

/-- The record id `"<year>-<monthIndex>-<day>-<catKey><suffix>"`. -/
def txId (year month day : Nat) (k : String) (suffix : String) : String :=
  toString year ++ "-" ++ toString month ++ "-" ++ toString day ++ "-" ++ k ++ suffix

/-- The transaction records pushed by variant 1's income loop for one
month, in push order. -/
def incomeTxsV1 (y mo : Nat) (m : MonthRecord) : List TxV1 :=
  allIncomeKeys.flatMap (fun k =>
    ((dailyOf (catsOf m) k).enum).filterMap (fun p =>
      if 0 < jnum p.2 then
        some { id := txId y mo p.1 k "-in", description := labelOf m k,
               amount := jnum p.2, type := "inflow", catKey := k,
               year := y, month := mo, day := p.1 }
      else none))

/-- The transaction records pushed by variant 1's expense loop for one
month, in push order. -/
def expenseTxsV1 (y mo : Nat) (m : MonthRecord) : List TxV1 :=
  expenseGroupsV1.flatMap (fun g =>
    g.2.flatMap (fun k =>
      ((dailyOf (catsOf m) k).enum).filterMap (fun p =>
        if 0 < jnum p.2 then
          some { id := txId y mo p.1 k "-out", description := labelOf m k,
                 amount := jnum p.2, type := "outflow", catKey := k,
                 year := y, month := mo, day := p.1 }
        else none)))

/-- All records one month pushes: the income loop runs first. -/
def monthTxsV1 (y mo : Nat) (m : MonthRecord) : List TxV1 :=
  incomeTxsV1 y mo m ++ expenseTxsV1 y mo m

/-- Variant 1's `recentTransactions` array before sorting/truncation. -/
def recentTxsFullV1 (L : Ledger) : List TxV1 :=
  (ledgerMonths L).flatMap (fun e => monthTxsV1 e.1 e.2.1 e.2.2)

/-- Variant 1's `incomeTransactionCount + expenseTransactionCount`: both
counters increment exactly when a record is pushed, so the total equals
the feed length. -/
def totalTransactionsV1 (L : Ledger) : Nat :=
  (recentTxsFullV1 L).length

/-- The `monthlyBreakdown[monthKey]` update of variant 1: initialise the
key with zeroes when absent, then add the month's income and expense.
Month keys `"<name> <year>"` are modelled as `(year, monthIndex)` pairs,
which are in bijection with the key strings for month indexes 0 to 11. -/
def updBreak : List ((Nat × Nat) × Int × Int) → Nat × Nat → Int → Int →
    List ((Nat × Nat) × Int × Int)
  | [], k, i, e => [(k, (i, e))]
  | x :: xs, k, i, e =>
      if x.1 = k then (x.1, (x.2.1 + i, x.2.2 + e)) :: xs
      else x :: updBreak xs k i e

/-- Variant 1's `monthlyBreakdown` after the main loop. -/
def monthlyBreakdownV1 (L : Ledger) : List ((Nat × Nat) × Int × Int) :=
  (ledgerMonths L).foldl
    (fun b e => updBreak b (e.1, e.2.1)
      (monthIncomeV1 (catsOf e.2.2)) (monthExpenseV1 (catsOf e.2.2))) []

/-- The accumulating object update
`expenseByCategory[groupName] = (expenseByCategory[groupName] || 0) + groupSum`. -/
def updCat : List (String × Int) → String → Int → List (String × Int)
  | [], g, v => [(g, v)]
  | x :: xs, g, v =>
      if x.1 = g then (x.1, x.2 + v) :: xs else x :: updCat xs g v

/-- Variant 1's `expenseByCategory` object: per month, each expense group
with a positive sum is added, but only when the month's year equals the
current calendar year. -/
def expenseByCategoryV1 (L : Ledger) (currentYear : Nat) : List (String × Int) :=
  (ledgerMonths L).foldl
    (fun acc e =>
      expenseGroupsV1.foldl
        (fun acc2 g =>
          if 0 < groupSumV1 (catsOf e.2.2) g.2 then
            if e.1 = currentYear then updCat acc2 g.1 (groupSumV1 (catsOf e.2.2) g.2)
            else acc2
          else acc2) acc) []

/-- Variant 1's `ytdIncome`: full (not positive-only) sums over the income
keys of every month of the current year; `if (yearsData[currentYear])`
guards the whole block, an absent year contributing nothing. -/
def ytdIncomeV1 (L : Ledger) (currentYear : Nat) : Int :=
  match L.find? (fun ym => ym.1 == currentYear) with
  | none => 0
  | some ym =>
      ym.2.foldl
        (fun s mm =>
          s + allIncomeKeys.foldl
                (fun s2 k => s2 + reduceSum (dailyOf (catsOf mm.2) k)) 0) 0

/-- Variant 1's `ytdExpense`, over `allExpenseKeys`. -/
def ytdExpenseV1 (L : Ledger) (currentYear : Nat) : Int :=
  match L.find? (fun ym => ym.1 == currentYear) with
  | none => 0
  | some ym =>
      ym.2.foldl
        (fun s mm =>
          s + allExpenseKeysV1.foldl
                (fun s2 k => s2 + reduceSum (dailyOf (catsOf mm.2) k)) 0) 0

/-- Variant 1's `ytdNetProfit = ytdIncome - ytdExpense`. -/
def ytdNetProfitV1 (L : Ledger) (currentYear : Nat) : Int :=
  ytdIncomeV1 L currentYear - ytdExpenseV1 L currentYear

/-- The `Math.round` applied to the KPI scalars; on the integral number
domain of this embedding it is the identity. -/
def mathRound (x : Int) : Int := x

/-- The KPI `ytdNetProfit: Math.round(ytdNetProfit)` of variant 1. -/
def kpiYtdNetProfitV1 (L : Ledger) (currentYear : Nat) : Int :=
  mathRound (ytdNetProfitV1 L currentYear)

/-- The month-key order computed by variant 1's sort comparator
`new Date(y1-m1-01) - new Date(y2-m2-01)`: ascending by year, then by
month index. -/
def monthKeyLe (a b : Nat × Nat) : Bool :=
  decide (a.1 < b.1) || (decide (a.1 = b.1) && decide (a.2 ≤ b.2))

/-- The strict version of `monthKeyLe`. -/
def monthKeyLt (a b : Nat × Nat) : Prop :=
  a.1 < b.1 ∨ (a.1 = b.1 ∧ a.2 < b.2)

instance : DecidableRel monthKeyLt := fun a b =>
  inferInstanceAs (Decidable (a.1 < b.1 ∨ (a.1 = b.1 ∧ a.2 < b.2)))

/-- Variant 1's `sortedMonths`: the breakdown keys sorted chronologically;
`Array.prototype.sort` is stable, modelled by `mergeSort`. -/
def sortedMonthsV1 (L : Ledger) : List (Nat × Nat) :=
  ((monthlyBreakdownV1 L).map Prod.fst).mergeSort monthKeyLe

/-- The trailing-window selection `arr.slice(-n)`. -/
def sliceLast {α : Type} (n : Nat) (l : List α) : List α :=
  l.drop (l.length - n)

/-- The lookup `monthlyBreakdown[name]` used while shaping the chart
series (the key is always present there). -/
def breakLookup (b : List ((Nat × Nat) × Int × Int)) (k : Nat × Nat) : Int × Int :=
  match b.find? (fun e => e.1 == k) with
  | some e => e.2
  | none => (0, 0)

/-- Variant 1's `monthlyComparisonData`: the last six sorted months mapped
to `{name, income, expense}` rows. -/
def monthlyComparisonDataV1 (L : Ledger) : List ((Nat × Nat) × Int × Int) :=
  (sliceLast 6 (sortedMonthsV1 L)).map
    (fun k => (k, breakLookup (monthlyBreakdownV1 L) k))

/-- The date order of variant 1's transaction comparator
`(a, b) => b.date - a.date`: `dateLe a b` holds when the comparator value
is at most zero, i.e. when `b`'s date is at most `a`'s. -/
def dateLe (a b : TxV1) : Bool :=
  decide (b.year < a.year) ||
    (decide (b.year = a.year) &&
      (decide (b.month < a.month) ||
        (decide (b.month = a.month) && decide (b.day ≤ a.day))))

/-- Variant 1's `sortedTransactions`: stable sort by date descending, then
`slice(0, 7)`. -/
def sortedTransactionsV1 (L : Ledger) : List TxV1 :=
  ((recentTxsFullV1 L).mergeSort dateLe).take 7

/-! ## Variant 2 (second half of `server.js`) -/

/-- The income keys of variant 2's `categoriesDefinition` (its two income
groups list the same keys as variant 1's). -/
def allIncomeKeysV2 : List String :=
  ["sales_cash", "sales_credit", "sales_cheques", "sales_transfer", "sales_other",
   "exempt_sales_cash", "exempt_sales_credit", "exempt_sales_cheques", "exempt_sales_transfer", "exempt_sales_other"]

/-- The `allExpenseKeys` of variant 2: items of every group whose stable
identifier does not contain "income", in source order. -/
def allExpenseKeysV2 : List String :=
  ["supplier_1", "supplier_2", "supplier_3", "supplier_4", "supplier_5", "supplier_6", "supplier_7", "supplier_8", "supplier_9", "supplier_10",
   "electricity", "water", "packaging", "marketing", "custom_var_1", "custom_var_2", "custom_var_3", "custom_var_4", "car_expenses", "phone_expenses", "partial_custom_1", "partial_custom_2",
   "loan_1", "loan_2", "loan_3", "loan_4", "loan_5", "loan_6", "loan_7", "loan_8", "loan_9", "loan_10",
   "rent", "arnona", "insurance", "accounting", "communication", "software", "custom_fixed_1", "custom_fixed_2", "custom_fixed_3", "custom_fixed_4",
   "salaries", "social_security", "income_tax", "vat_payment", "vat_field", "custom_tax_1", "custom_tax_2", "custom_tax_3", "custom_tax_4",
   "misc"]

/-- Variant 2's `groupMapping` for the expense-trend breakdown: chart
label to the member keys of the corresponding taxonomy group. -/
def groupMappingV2 : List (String × List String) :=
  [("ספקים", ["supplier_1", "supplier_2", "supplier_3", "supplier_4", "supplier_5", "supplier_6", "supplier_7", "supplier_8", "supplier_9", "supplier_10"]),
   ("הוצאות קבועות", ["rent", "arnona", "insurance", "accounting", "communication", "software", "custom_fixed_1", "custom_fixed_2", "custom_fixed_3", "custom_fixed_4"]),
   ("הוצאות משתנות", ["electricity", "water", "packaging", "marketing", "custom_var_1", "custom_var_2", "custom_var_3", "custom_var_4", "car_expenses", "phone_expenses", "partial_custom_1", "partial_custom_2"]),
   ("משכורות ומיסים", ["salaries", "social_security", "income_tax", "vat_payment", "vat_field", "custom_tax_1", "custom_tax_2", "custom_tax_3", "custom_tax_4"]),
   ("הלוואות", ["loan_1", "loan_2", "loan_3", "loan_4", "loan_5", "loan_6", "loan_7", "loan_8", "loan_9", "loan_10"]),
   ("בלת\x27מ", ["misc"])]

/-- Variant 2's `monthTotalIncome`: full per-category sums over the income
keys. -/
def monthTotalIncomeV2 (cats : CatMap) : Int :=
  allIncomeKeysV2.foldl (fun s k => s + reduceSum (dailyOf cats k)) 0

/-- Variant 2's per-group `groupSum`: full sums of the group's keys. -/
def groupSumV2 (cats : CatMap) (keys : List String) : Int :=
  keys.foldl (fun s k => s + reduceSum (dailyOf cats k)) 0

/-- Variant 2's `monthTotalExpense`: the sum of all six group sums of
`groupMapping`, with no positivity guard. -/
def monthTotalExpenseV2 (cats : CatMap) : Int :=
  groupMappingV2.foldl (fun s g => s + groupSumV2 cats g.2) 0

/-- The assignment-style association update of variant 2, which overwrites
the value at an existing key and appends a new key at the end. -/
def assocSet {α : Type} : List ((Nat × Nat) × α) → Nat × Nat → α →
    List ((Nat × Nat) × α)
  | [], k, v => [(k, v)]
  | x :: xs, k, v => if x.1 = k then (k, v) :: xs else x :: assocSet xs k v

/-- Variant 2's `monthlyBreakdown`: per month it is overwritten with
`{income: monthTotalIncome, expense: monthTotalExpense}`. -/
def monthlyBreakdownV2 (L : Ledger) : List ((Nat × Nat) × Int × Int) :=
  (ledgerMonths L).foldl
    (fun b e => assocSet b (e.1, e.2.1)
      (monthTotalIncomeV2 (catsOf e.2.2), monthTotalExpenseV2 (catsOf e.2.2))) []

/-- Variant 2's `expenseTrendBreakdown`: per month, the six group labels
mapped to their group sums (the zero initialisation is immediately
overwritten by the assignments). -/
def expenseTrendBreakdownV2 (L : Ledger) : List ((Nat × Nat) × List (String × Int)) :=
  (ledgerMonths L).foldl
    (fun b e => assocSet b (e.1, e.2.1)
      (groupMappingV2.map (fun g => (g.1, groupSumV2 (catsOf e.2.2) g.2)))) []

/-- Variant 2's `sortedMonths`.  The comparator parses the Hebrew month
label with `new Date(...)`, which yields an invalid date, so the
comparator returns `NaN`; ECMAScript treats a `NaN` comparator result as
`0`, and the stable sort therefore leaves the keys in insertion order. -/
def sortedMonthsV2 (L : Ledger) : List (Nat × Nat) :=
  (monthlyBreakdownV2 L).map Prod.fst

/-- Variant 2's `expenseTrendData`: the last six sorted months, each with
its expense-trend row. -/
def expenseTrendDataV2 (L : Ledger) : List ((Nat × Nat) × List (String × Int)) :=
  (sliceLast 6 (sortedMonthsV2 L)).map
    (fun k =>
      (k, match (expenseTrendBreakdownV2 L).find? (fun e => e.1 == k) with
          | some e => e.2
          | none => []))

/-- Variant 2's `ytdNetProfit`: the sum over the current year's months of
`monthIncome - monthExpense`, both full sums over the variant 2 key
lists; an absent current year contributes nothing. -/
def ytdNetProfitV2 (L : Ledger) (currentYear : Nat) : Int :=
  match L.find? (fun ym => ym.1 == currentYear) with
  | none => 0
  | some ym =>
      ym.2.foldl
        (fun s mm =>
          s + (allIncomeKeysV2.foldl
                 (fun s2 k => s2 + reduceSum (dailyOf (catsOf mm.2) k)) 0
               - allExpenseKeysV2.foldl
                   (fun s2 k => s2 + reduceSum (dailyOf (catsOf mm.2) k)) 0)) 0

/-- The KPI `ytdNetProfit: Math.round(ytdNetProfit)` of variant 2. -/
def kpiYtdNetProfitV2 (L : Ledger) (currentYear : Nat) : Int :=
  mathRound (ytdNetProfitV2 L currentYear)

/-! ## Variant P0 (`unnamed/part_000`) -/

/-- The substring test `str.includes(needle)`. -/
def includes (hay needle : String) : Bool :=
  decide (needle.toList <:+: hay.toList)

/-- A variant P0 recent-transaction record: `{id, company, amount, type}`.
The source sets `type: "inflow"` always; the `(year, month, day)`
components encoded in the `id` string are kept as fields. -/
structure TxP0 where
  id : String
  company : String
  amount : Int
  type : String
  year : Nat
  month : Nat
  day : Nat
deriving DecidableEq

/-- The records variant P0 pushes for one month: for every category whose
key contains "sales" or "exempt" and whose month sum is positive, one
record per strictly positive daily value. -/
def monthTxsP0 (y mo : Nat) (m : MonthRecord) : List TxP0 :=
  (catsOf m).flatMap (fun kv =>
    if includes kv.1 "sales" || includes kv.1 "exempt" then
      if 0 < reduceSum kv.2 then
        (kv.2.enum).filterMap (fun p =>
          if 0 < jnum p.2 then
            some { id := txId y mo p.1 kv.1 "",
                   company := "הכנסה מ-" ++ labelOf m kv.1,
                   amount := jnum p.2, type := "inflow",
                   year := y, month := mo, day := p.1 }
          else none)
      else []
    else [])

/-- Variant P0's `recentTransactions` array before truncation. -/
def recentTxsFullP0 (L : Ledger) : List TxP0 :=
  (ledgerMonths L).flatMap (fun e => monthTxsP0 e.1 e.2.1 e.2.2)

/-- Variant P0's feed output: `recentTransactions.slice(-5).reverse()`. -/
def recentTransactionsP0 (L : Ledger) : List TxP0 :=
  (sliceLast 5 (recentTxsFullP0 L)).reverse

/-! ## Variant P1 (`unnamed/part_001`) -/

/-- An object element of the flat `transactions` array.  Each field
models the JavaScript value observed by the code; `none` stands for an
absent or undefined field.  The `amount` of a well-formed element is a
number; a `none` amount also covers `NaN` and `null`, which the code
treats the same way (no revenue contribution, `|| 0` coercion to `0`).
A non-object truthy element (a number, a string) supports property
access with every read yielding undefined, so it is represented by a
record with all fields `none`. -/
structure TxIn where
  id : Option String
  description : Option String
  amount : Option Int
deriving DecidableEq

/-- One element of the flat `transactions` array.  `jnull` stands for a
`null` (or `undefined`) element: the guard `transaction && ...` shields
only the revenue accumulation, and the subsequent unguarded
`transaction.id` property read throws a TypeError on it.  Every other
value supports property access and is modelled by `obj`. -/
inductive TxElem where
  | jnull
  | obj (t : TxIn)
deriving DecidableEq

/-- The message of the TypeError thrown by the unguarded
`transaction.id` read on a `null` array element (Node's wording; an
`undefined` element throws the analogous message, which likewise does
not contain "not found"). -/
def typeErrorMsg : String :=
  "Cannot read properties of null (reading \x27id\x27)"

/-- A record the flat variant emits: `{id, company, amount, type}`. -/
structure TxOut where
  id : String
  company : String
  amount : Int
  type : String
deriving DecidableEq

/-- The falsy-defaulting access `v || d` for string fields: an absent or
empty string falls back to the default. -/
def orDefaultS (v : Option String) (d : String) : String :=
  match v with
  | some s => if s = "" then d else s
  | none => d

/-- The record built for the element at index `i`:
`{id: transaction.id || tx_i, company: transaction.description ||
"Unknown Company", amount: transaction.amount || 0, type: amount >= 0 ?
"inflow" : "outflow"}`. -/
def mkRecP1 (i : Nat) (t : TxIn) : TxOut :=
  { id := orDefaultS t.id ("tx_" ++ toString i),
    company := orDefaultS t.description "Unknown Company",
    amount := t.amount.getD 0,
    type := if 0 ≤ t.amount.getD 0 then "inflow" else "outflow" }

/-- The `transactions.forEach((transaction, index) => ...)` push loop
restricted to object elements: each emits exactly one record. -/
def recentTxsP1Aux : Nat → List TxIn → List TxOut
  | _, [] => []
  | i, t :: ts => mkRecP1 i t :: recentTxsP1Aux (i + 1) ts

/-- The push loop over the raw elements: one record per object element,
aborting with the TypeError of the unguarded `transaction.id` read when
an element is `null` or `undefined` (records pushed before the throw are
discarded with the failed request). -/
def emitTxsP1 : Nat → List TxElem → Except String (List TxOut)
  | _, [] => .ok []
  | _, TxElem.jnull :: _ => .error typeErrorMsg
  | i, TxElem.obj t :: ts =>
      match emitTxsP1 (i + 1) ts with
      | .ok rs => .ok (mkRecP1 i t :: rs)
      | .error e => .error e

/-- The emitted record list of variant P1, or the TypeError. -/
def recentTxsP1 (txs : List TxElem) : Except String (List TxOut) :=
  emitTxsP1 0 txs

/-- Variant P1's `totalRevenue`: an element contributes exactly when it
is truthy and its amount is a number strictly greater than zero (the
accumulated value is observable only when no element made the push loop
throw). -/
def totalRevenueP1 (txs : List TxElem) : Int :=
  txs.foldl
    (fun s e =>
      match e with
      | TxElem.jnull => s
      | TxElem.obj t =>
          match t.amount with
          | some x => if 0 < x then s + x else s
          | none => s) 0

/-- The `transactions` field of the user document: absent (defaulting to
an empty array), an array, or present with a non-array shape. -/
inductive TransField where
  | missing
  | arr (txs : List TxElem)
  | notArray
deriving DecidableEq

/-- The user document of variant P1 (only the field the engine reads). -/
structure UserDocP1 where
  transactions : TransField
deriving DecidableEq

/-- The report object of variant P1 restricted to the computed fields
(the placeholder metrics and mocked chart rows are constants). -/
structure ReportP1 where
  totalRevenue : Int
  activeUsers : Nat
  recentTransactions : List TxOut
deriving DecidableEq

/-- The success report for a transactions array `txs` whose push loop
emitted the records `recs`. -/
def mkReportP1 (txs : List TxElem) (recs : List TxOut) : ReportP1 :=
  { totalRevenue := totalRevenueP1 txs,
    activeUsers := txs.length,
    recentTransactions := (sliceLast 5 recs).reverse }

/-- The message of the error thrown when the user document is absent. -/
def notFoundMsg (userId : String) : String :=
  "User with ID \x27" ++ userId ++ "\x27 not found in the database."

/-- The message of the error thrown when the `transactions` field is
present but not an array. -/
def shapeErrMsg (userId : String) : String :=
  "Data format error: The \x27transactions\x27 field for user \x27" ++ userId ++ "\x27 is not an array."

/-- Variant P1's `getDashboardDataForUser` on a fetched document
(`none` models `doc.exists` being false).  A `null` or `undefined`
element of a present array makes the push loop throw, so the whole
request fails with the TypeError. -/
def getDashboardDataP1 (userId : String) (doc : Option UserDocP1) :
    Except String ReportP1 :=
  match doc with
  | none => .error (notFoundMsg userId)
  | some d =>
      match d.transactions with
      | .notArray => .error (shapeErrMsg userId)
      | .missing =>
          match recentTxsP1 [] with
          | .error e => .error e
          | .ok recs => .ok (mkReportP1 [] recs)
      | .arr txs =>
          match recentTxsP1 txs with
          | .error e => .error e
          | .ok recs => .ok (mkReportP1 txs recs)

/-- The route's error mapping:
`res.status(error.message.includes("not found") ? 404 : 500)`, and 200 on
success. -/
def statusOfP1 (r : Except String ReportP1) : Nat :=
  match r with
  | .ok _ => 200
  | .error msg => if includes msg "not found" then 404 else 500

/-- A Boolean success test for the engine result. -/
def isErrP1 (r : Except String ReportP1) : Bool :=
  match r with
  | .ok _ => false
  | .error _ => true

/-! ## Year selection (modelled from the spec) -/

/-- Modelled from the spec: the repository revision implementing the
optional `selectedYear` parameter is not under `src/` (the four source
variants take only `userId`); the spec describes the selection as "use it
if the ledger has data for that year; otherwise fall back to the
lexically-largest year key present", with an explicit empty sentinel when
the ledger has no years.  `lexMax` is that lexically-largest year key. -/
def lexMax : List String → Option String
  | [] => none
  | y :: ys =>
      match lexMax ys with
      | none => some y
      | some m => some (if y < m then m else y)

/-- Modelled from the spec: the resolved aggregation year; `none` is the
empty-result sentinel. -/
def resolveYear (selectedYear : Option String) (years : List String) :
    Option String :=
  match selectedYear with
  | some y => if y ∈ years then some y else lexMax years
  | none => lexMax years

/-- Modelled from the spec: the output's list of available years is the
ledger's year-key list. -/
def availableYears (years : List String) : List String := years

/-! ## Specification-side quantities and concrete inputs -/

/-- The specification's reading of a classified total: the sum of the
per-category daily sums over the ledger entries whose key belongs to the
given taxonomy key list (each entry counted once, unclassified entries
excluded). -/
def classifiedSum (cats : CatMap) (keys : List String) : Int :=
  ((cats.filter (fun e => keys.contains e.1)).map (fun e => reduceSum e.2)).sum

/-- The per-month normalization named `normalizeMonth` by the spec: the
category's daily values, as defaulted by the source, reduced with
`(s, v) => s + (Number(v) || 0)`. -/
def normalizeMonth (m : MonthRecord) (k : String) : Int :=
  reduceSum (dailyOf (catsOf m) k)

/-- Two month keys are consecutive calendar months. -/
def consecMonth (a b : Nat × Nat) : Prop :=
  (b.1 = a.1 ∧ b.2 = a.2 + 1) ∨ (b.1 = a.1 + 1 ∧ a.2 = 11 ∧ b.2 = 0)

instance : DecidableRel consecMonth := fun a b =>
  inferInstanceAs
    (Decidable ((b.1 = a.1 ∧ b.2 = a.2 + 1) ∨ (b.1 = a.1 + 1 ∧ a.2 = 11 ∧ b.2 = 0)))

/-- The date-descending order on variant P0 records, derived from the
`(year, month, day)` components their id strings encode. -/
def dateLeP0 (a b : TxP0) : Bool :=
  decide (b.year < a.year) ||
    (decide (b.year = a.year) &&
      (decide (b.month < a.month) ||
        (decide (b.month = a.month) && decide (b.day ≤ a.day))))

/-- A month record holding a single positive cash sale. -/
def oneSaleMonth : MonthRecord :=
  ⟨some [("sales_cash", [JVal.num 100])], none⟩

/-- A categories object whose income category holds a negative daily
value next to a positive one. -/
def negIncomeCats : CatMap :=
  [("sales_cash", [JVal.num (-5), JVal.num 10])]

/-- A ledger populated for the first three months of 2024 and of 2025:
six populated months with a six-month calendar gap between them. -/
def gapLedger : Ledger :=
  [(2024, [(0, oneSaleMonth), (1, oneSaleMonth), (2, oneSaleMonth)]),
   (2025, [(0, oneSaleMonth), (1, oneSaleMonth), (2, oneSaleMonth)])]

/-- A month with two revenue categories, the first of which has values on
two days; the emission order of variant P0 interleaves the days of the
two categories. -/
def p0month : MonthRecord :=
  ⟨some [("sales_cash", [JVal.num 100, JVal.num 50]),
         ("sales_credit", [JVal.num 70])], none⟩

/-- A one-month ledger for the variant P0 counterexample. -/
def p0ledger : Ledger := [(2025, [(5, p0month)])]

/-- A categories object with one income and one expense entry, all values
non-negative. -/
def plainCats : CatMap :=
  [("sales_cash", [JVal.num 3]), ("rent", [JVal.num 2])]

/-- A one-month, one-year ledger used by several witnesses. -/
def plainLedger : Ledger :=
  [(2025, [(0, MonthRecord.mk (some plainCats) none)])]

/-! ## Helper lemmas: fold-based sums -/

theorem foldl_add_eq {α : Type} (g : α → Int) (l : List α) :
    ∀ s : Int, l.foldl (fun a x => a + g x) s = s + (l.map g).sum := by
  induction l with
  | nil => intro s; simp
  | cons x xs ih => intro s; simp [ih (s + g x), add_assoc]

theorem posSum_aux (l : List JVal) :
    ∀ s : Int,
      l.foldl (fun s v => if 0 < jnum v then s + jnum v else s) s
        = s + (l.map (fun v => if 0 < jnum v then jnum v else 0)).sum := by
  induction l with
  | nil => intro s; simp
  | cons x xs ih =>
      intro s
      by_cases h : 0 < jnum x
      · simp [List.foldl_cons, if_pos h, ih, add_assoc]
      · simp [List.foldl_cons, if_neg h, ih]

theorem posSum_eq (l : List JVal) :
    posSum l = (l.map (fun v => if 0 < jnum v then jnum v else 0)).sum := by
  simpa [posSum] using posSum_aux l 0

theorem reduceSum_eq (l : List JVal) : reduceSum l = (l.map jnum).sum := by
  simpa [reduceSum] using foldl_add_eq jnum l 0

theorem posSum_nonneg (l : List JVal) : 0 ≤ posSum l := by
  rw [posSum_eq]
  refine List.sum_nonneg ?_
  intro x hx
  obtain ⟨v, _, rfl⟩ := List.mem_map.mp hx
  by_cases h : 0 < jnum v
  · rw [if_pos h]; exact le_of_lt h
  · rw [if_neg h]

theorem posSum_eq_reduceSum {l : List JVal} (h : ∀ v ∈ l, 0 ≤ jnum v) :
    posSum l = reduceSum l := by
  rw [posSum_eq, reduceSum_eq]
  refine congrArg _ (List.map_congr_left ?_)
  intro v hv
  by_cases h0 : 0 < jnum v
  · rw [if_pos h0]
  · rw [if_neg h0]
    have := h v hv
    omega

/-! ## Helper lemmas: category lookup -/

theorem dailyOf_nil (k : String) : dailyOf [] k = [] := rfl

theorem dailyOf_cons (e : String × List JVal) (cats : CatMap) (k : String) :
    dailyOf (e :: cats) k = if e.1 = k then e.2 else dailyOf cats k := by
  by_cases h : e.1 = k
  · simp [dailyOf, List.find?_cons, h]
  · simp [dailyOf, List.find?_cons, h]

theorem dailyOf_eq_nil {cats : CatMap} {k : String}
    (h : k ∉ cats.map Prod.fst) : dailyOf cats k = [] := by
  induction cats with
  | nil => rfl
  | cons e cs ih =>
      rw [dailyOf_cons]
      simp only [List.map_cons, List.mem_cons, not_or] at h
      rw [if_neg (fun he => h.1 he.symm)]
      exact ih h.2

theorem mem_dailyOf {cats : CatMap} {k : String} {v : JVal}
    (h : v ∈ dailyOf cats k) : ∃ e ∈ cats, v ∈ e.2 := by
  induction cats with
  | nil => simp [dailyOf_nil] at h
  | cons e cs ih =>
      rw [dailyOf_cons] at h
      by_cases he : e.1 = k
      · rw [if_pos he] at h
        exact ⟨e, List.mem_cons_self .., h⟩
      · rw [if_neg he] at h
        obtain ⟨e', he', hv⟩ := ih h
        exact ⟨e', List.mem_cons_of_mem _ he', hv⟩

theorem sum_ite_single (a : String) (c : Int) (keys : List String)
    (hk : keys.Nodup) :
    (keys.map (fun k => if k = a then c else 0)).sum
      = if a ∈ keys then c else 0 := by
  induction keys with
  | nil => simp
  | cons x xs ih =>
      obtain ⟨hx, hxs⟩ := List.nodup_cons.mp hk
      simp only [List.map_cons, List.sum_cons]
      by_cases h : x = a
      · subst h
        rw [if_pos rfl, if_pos (List.mem_cons_self ..)]
        have hz : (xs.map (fun k => if k = x then c else 0)).sum = 0 := by
          refine List.sum_eq_zero ?_
          intro y hy
          obtain ⟨k, hkxs, rfl⟩ := List.mem_map.mp hy
          refine if_neg (fun hkx => hx ?_)
          rw [← hkx]
          exact hkxs
        rw [hz, add_zero]
      · rw [if_neg h, ih hxs, zero_add]
        by_cases hm : a ∈ xs
        · rw [if_pos hm, if_pos (List.mem_cons_of_mem _ hm)]
        · rw [if_neg hm, if_neg ?_]
          simp only [List.mem_cons, not_or]
          exact ⟨fun hax => h hax.symm, hm⟩

theorem keysSum_filter (f : List JVal → Int) (hf : f [] = 0)
    (keys : List String) (hk : keys.Nodup) :
    ∀ cats : CatMap, (cats.map Prod.fst).Nodup →
      (keys.map (fun k => f (dailyOf cats k))).sum
        = ((cats.filter (fun e => keys.contains e.1)).map (fun e => f e.2)).sum := by
  intro cats
  induction cats with
  | nil =>
      intro _
      have h0 : ∀ k ∈ keys, f (dailyOf [] k) = (fun _ : String => (0 : Int)) k := by
        intro k _
        rw [dailyOf_nil, hf]
      rw [List.map_congr_left h0]
      simp
  | cons e cs ih =>
      intro hnod
      have he : e.1 ∉ cs.map Prod.fst := by
        simp only [List.map_cons, List.nodup_cons] at hnod
        exact hnod.1
      have hcs : (cs.map Prod.fst).Nodup := by
        simp only [List.map_cons, List.nodup_cons] at hnod
        exact hnod.2
      have hstep : ∀ k ∈ keys,
          f (dailyOf (e :: cs) k)
            = (fun k => f (dailyOf cs k) + (if k = e.1 then f e.2 else 0)) k := by
        intro k _
        simp only
        rw [dailyOf_cons]
        by_cases h : e.1 = k
        · subst h
          rw [if_pos rfl, if_pos rfl, dailyOf_eq_nil he, hf, zero_add]
        · rw [if_neg h, if_neg (fun hh => h hh.symm), add_zero]
      rw [List.map_congr_left hstep, List.sum_map_add, ih hcs,
        sum_ite_single e.1 (f e.2) keys hk]
      by_cases hm : e.1 ∈ keys
      · have hcont : keys.contains e.1 = true := by simpa using hm
        rw [if_pos hm, List.filter_cons, if_pos hcont]
        simp [add_comm]
      · have hcont : keys.contains e.1 = false := by simpa using hm
        rw [if_neg hm, List.filter_cons, hcont]
        simp

theorem foldl_posGuard {α : Type} (g : α → Int) (l : List α)
    (h : ∀ x ∈ l, 0 ≤ g x) :
    ∀ s : Int,
      l.foldl (fun s x => if 0 < g x then s + g x else s) s
        = s + (l.map g).sum := by
  induction l with
  | nil => intro s; simp
  | cons x xs ih =>
      intro s
      have hx := h x (List.mem_cons_self ..)
      have hxs : ∀ y ∈ xs, 0 ≤ g y := fun y hy => h y (List.mem_cons_of_mem _ hy)
      by_cases h0 : 0 < g x
      · simp [List.foldl_cons, if_pos h0, ih hxs, add_assoc]
      · have hz : g x = 0 := by omega
        simp [List.foldl_cons, if_neg h0, ih hxs, hz]

theorem sum_map_flatMap {α β : Type} (l : List α) (f : α → List β) (h : β → Int) :
    ((l.flatMap f).map h).sum = (l.map (fun x => ((f x).map h).sum)).sum := by
  induction l with
  | nil => simp
  | cons x xs ih => simp [List.flatMap_cons, List.map_append, List.sum_append, ih]

theorem monthIncomeV1_eq (cats : CatMap) :
    monthIncomeV1 cats = (allIncomeKeys.map (fun k => posSum (dailyOf cats k))).sum := by
  simpa [monthIncomeV1] using
    foldl_add_eq (fun k => posSum (dailyOf cats k)) allIncomeKeys 0

theorem groupSumV1_eq (cats : CatMap) (keys : List String) :
    groupSumV1 cats keys = (keys.map (fun k => posSum (dailyOf cats k))).sum := by
  simpa [groupSumV1] using
    foldl_add_eq (fun k => posSum (dailyOf cats k)) keys 0

theorem groupSumV1_nonneg (cats : CatMap) (keys : List String) :
    0 ≤ groupSumV1 cats keys := by
  rw [groupSumV1_eq]
  refine List.sum_nonneg ?_
  intro x hx
  obtain ⟨k, _, rfl⟩ := List.mem_map.mp hx
  exact posSum_nonneg _

theorem monthExpenseV1_eq (cats : CatMap) :
    monthExpenseV1 cats
      = (expenseGroupsV1.map (fun g => groupSumV1 cats g.2)).sum := by
  simpa [monthExpenseV1] using
    foldl_posGuard (fun g => groupSumV1 cats g.2) expenseGroupsV1
      (fun g _ => groupSumV1_nonneg cats g.2) 0

theorem monthTotalIncomeV2_eq (cats : CatMap) :
    monthTotalIncomeV2 cats
      = (allIncomeKeysV2.map (fun k => reduceSum (dailyOf cats k))).sum := by
  simpa [monthTotalIncomeV2] using
    foldl_add_eq (fun k => reduceSum (dailyOf cats k)) allIncomeKeysV2 0

theorem groupSumV2_eq (cats : CatMap) (keys : List String) :
    groupSumV2 cats keys = (keys.map (fun k => reduceSum (dailyOf cats k))).sum := by
  simpa [groupSumV2] using
    foldl_add_eq (fun k => reduceSum (dailyOf cats k)) keys 0

theorem monthTotalExpenseV2_eq (cats : CatMap) :
    monthTotalExpenseV2 cats
      = (groupMappingV2.map (fun g => groupSumV2 cats g.2)).sum := by
  simpa [monthTotalExpenseV2] using
    foldl_add_eq (fun g => groupSumV2 cats g.2) groupMappingV2 0

theorem nonneg_dailyOf {cats : CatMap}
    (h : ∀ e ∈ cats, ∀ v ∈ e.2, 0 ≤ jnum v) (k : String) :
    ∀ v ∈ dailyOf cats k, 0 ≤ jnum v := by
  intro v hv
  obtain ⟨e, he, hve⟩ := mem_dailyOf hv
  exact h e he v hve

/-- C1.  The claim reads every classified total as the sum of the
per-category daily sums (`classifiedSum`).  Variant 2 satisfies it
unconditionally, and variant 1's month expense is always the sum of its
per-group sums; but variant 1's totals agree with the per-category daily
sums only when every classified daily value is non-negative, because its
loops add a daily value only under `if (numValue > 0)`.  A category key
outside the taxonomy is filtered out of `classifiedSum` and iterated by
no loop, so it contributes to neither total in either variant. -/
theorem claim1_conservation :
    (∀ cats : CatMap, (cats.map Prod.fst).Nodup →
        monthTotalIncomeV2 cats = classifiedSum cats allIncomeKeysV2
      ∧ monthTotalExpenseV2 cats
          = classifiedSum cats (groupMappingV2.flatMap (fun g => g.2)))
  ∧ (∀ cats : CatMap,
      monthExpenseV1 cats = (expenseGroupsV1.map (fun g => groupSumV1 cats g.2)).sum)
  ∧ (∀ cats : CatMap, (cats.map Prod.fst).Nodup →
      (∀ e ∈ cats, ∀ v ∈ e.2, 0 ≤ jnum v) →
        monthIncomeV1 cats = classifiedSum cats allIncomeKeys
      ∧ monthExpenseV1 cats = classifiedSum cats allExpenseKeysV1) := by
  refine ⟨fun cats hnod => ⟨?_, ?_⟩, monthExpenseV1_eq, fun cats hnod hpos => ⟨?_, ?_⟩⟩
  · rw [monthTotalIncomeV2_eq]
    exact keysSum_filter reduceSum rfl allIncomeKeysV2 (by decide) cats hnod
  · rw [monthTotalExpenseV2_eq]
    have hgrp : ∀ g ∈ groupMappingV2,
        (fun g => groupSumV2 cats g.2) g
          = (fun g => ((g.2.map (fun k => reduceSum (dailyOf cats k))).sum :
              Int)) g := by
      intro g _
      exact groupSumV2_eq cats g.2
    rw [List.map_congr_left hgrp,
      ← sum_map_flatMap groupMappingV2 (fun g => g.2) (fun k => reduceSum (dailyOf cats k))]
    exact keysSum_filter reduceSum rfl (groupMappingV2.flatMap (fun g => g.2))
      (by decide) cats hnod
  · rw [monthIncomeV1_eq]
    have hpt : ∀ k ∈ allIncomeKeys,
        (fun k => posSum (dailyOf cats k)) k
          = (fun k => reduceSum (dailyOf cats k)) k := by
      intro k _
      exact posSum_eq_reduceSum (nonneg_dailyOf hpos k)
    rw [List.map_congr_left hpt]
    exact keysSum_filter reduceSum rfl allIncomeKeys (by decide) cats hnod
  · rw [monthExpenseV1_eq]
    have hgrp : ∀ g ∈ expenseGroupsV1,
        (fun g => groupSumV1 cats g.2) g
          = (fun g => ((g.2.map (fun k => posSum (dailyOf cats k))).sum : Int)) g := by
      intro g _
      exact groupSumV1_eq cats g.2
    rw [List.map_congr_left hgrp,
      ← sum_map_flatMap expenseGroupsV1 (fun g => g.2) (fun k => posSum (dailyOf cats k))]
    have hflat : expenseGroupsV1.flatMap (fun g => g.2) = allExpenseKeysV1 := by decide
    rw [hflat]
    have hpt : ∀ k ∈ allExpenseKeysV1,
        (fun k => posSum (dailyOf cats k)) k
          = (fun k => reduceSum (dailyOf cats k)) k := by
      intro k _
      exact posSum_eq_reduceSum (nonneg_dailyOf hpos k)
    rw [List.map_congr_left hpt]
    exact keysSum_filter reduceSum rfl allExpenseKeysV1 (by decide) cats hnod

/-- C1 counterexample: with a negative daily value (-5) next to a
positive one (10) in the income category `sales_cash`, variant 1 computes
a month income of 10 while the sum of the per-category daily sums of the
income keys is 5, so the claimed conservation equality fails as stated. -/
theorem claim1_counterexample :
    monthIncomeV1 negIncomeCats ≠ classifiedSum negIncomeCats allIncomeKeys := by
  decide

/-- C1 witness: the amended conservation applied to a concrete
non-negative two-category month. -/
theorem claim1_witness :
    (plainCats.map Prod.fst).Nodup
  ∧ (∀ e ∈ plainCats, ∀ v ∈ e.2, 0 ≤ jnum v)
  ∧ monthIncomeV1 plainCats = classifiedSum plainCats allIncomeKeys :=
  ⟨by decide, by decide, (claim1_conservation.2.2 plainCats (by decide) (by decide)).1⟩

/-- C5: the per-month normalization is total and pure.  An absent
`categories` map normalizes every category to 0; a non-numeric daily
entry contributes exactly 0 to its category's sum; and in general the
normalized value is the finite sum of the `Number(v) || 0` coercions of
the daily entries, so no month record can make the reduction fail. -/
theorem claim5_normalize_total :
    (∀ (cn : Option (List (String × String))) (k : String),
        normalizeMonth ⟨none, cn⟩ k = 0)
  ∧ (∀ pre post : List JVal,
        reduceSum (pre ++ JVal.nonnum :: post) = reduceSum (pre ++ post))
  ∧ (∀ (m : MonthRecord) (k : String),
        normalizeMonth m k = ((dailyOf (catsOf m) k).map jnum).sum) := by
  refine ⟨fun cn k => rfl, fun pre post => ?_, fun m k => reduceSum_eq _⟩
  rw [reduceSum_eq, reduceSum_eq]
  simp [List.map_append, List.sum_append, jnum]

/-- C6: when the ledger has no month records for the current calendar
year (the year key absent, or present with no months), the year-to-date
net profit KPI of both `server.js` variants is exactly 0. -/
theorem claim6_ytd_zero :
    ∀ (L : Ledger) (cy : Nat),
      (∀ ym ∈ L, ym.1 = cy → ym.2 = []) →
      kpiYtdNetProfitV1 L cy = 0 ∧ kpiYtdNetProfitV2 L cy = 0 := by
  intro L cy h
  constructor
  · simp only [kpiYtdNetProfitV1, mathRound, ytdNetProfitV1, ytdIncomeV1, ytdExpenseV1]
    cases hf : L.find? (fun ym => ym.1 == cy) with
    | none => simp
    | some ym =>
        have hy : ym.1 = cy := by simpa using List.find?_some hf
        have hnil : ym.2 = [] := h ym (List.mem_of_find?_eq_some hf) hy
        simp [hnil]
  · simp only [kpiYtdNetProfitV2, mathRound, ytdNetProfitV2]
    cases hf : L.find? (fun ym => ym.1 == cy) with
    | none => simp
    | some ym =>
        have hy : ym.1 = cy := by simpa using List.find?_some hf
        have hnil : ym.2 = [] := h ym (List.mem_of_find?_eq_some hf) hy
        simp [hnil]

/-- C6 witness: a ledger whose only year is 2024 has a zero YTD net
profit KPI for the current year 2025. -/
theorem claim6_witness :
    (∀ ym ∈ ([(2024, [(0, oneSaleMonth)])] : Ledger), ym.1 = 2025 → ym.2 = [])
  ∧ kpiYtdNetProfitV1 [(2024, [(0, oneSaleMonth)])] 2025 = 0 :=
  ⟨by decide, (claim6_ytd_zero [(2024, [(0, oneSaleMonth)])] 2025 (by decide)).1⟩

/-! ## Helper lemmas: the lexically-largest year key -/

theorem lexMax_eq_none_iff (l : List String) : lexMax l = none ↔ l = [] := by
  cases l with
  | nil => simp [lexMax]
  | cons y ys =>
      simp only [lexMax]
      cases lexMax ys <;> simp

theorem lexMax_mem : ∀ {l : List String} {m : String}, lexMax l = some m → m ∈ l := by
  intro l
  induction l with
  | nil => intro m h; simp [lexMax] at h
  | cons y ys ih =>
      intro m h
      simp only [lexMax] at h
      cases hys : lexMax ys with
      | none =>
          rw [hys] at h
          simp only [Option.some.injEq] at h
          exact h ▸ List.mem_cons_self ..
      | some m' =>
          rw [hys] at h
          simp only [Option.some.injEq] at h
          by_cases hlt : y < m'
          · rw [if_pos hlt] at h
            exact h ▸ List.mem_cons_of_mem _ (ih hys)
          · rw [if_neg hlt] at h
            exact h ▸ List.mem_cons_self ..

theorem lexMax_ge : ∀ {l : List String} {m : String},
    lexMax l = some m → ∀ z ∈ l, z ≤ m := by
  intro l
  induction l with
  | nil => intro m _ z hz; simp at hz
  | cons y ys ih =>
      intro m h z hz
      simp only [lexMax] at h
      rcases List.mem_cons.mp hz with hzy | hzys
      · subst hzy
        cases hys : lexMax ys with
        | none =>
            rw [hys] at h
            simp only [Option.some.injEq] at h
            exact le_of_eq h
        | some m' =>
            rw [hys] at h
            simp only [Option.some.injEq] at h
            by_cases hlt : z < m'
            · rw [if_pos hlt] at h
              exact le_of_lt (h ▸ hlt)
            · rw [if_neg hlt] at h
              exact le_of_eq h
      · cases hys : lexMax ys with
        | none =>
            rw [lexMax_eq_none_iff] at hys
            subst hys
            simp at hzys
        | some m' =>
            rw [hys] at h
            simp only [Option.some.injEq] at h
            have hz' : z ≤ m' := ih hys z hzys
            by_cases hlt : y < m'
            · rw [if_pos hlt] at h
              exact h ▸ hz'
            · rw [if_neg hlt] at h
              exact h ▸ le_trans hz' (le_of_not_lt hlt)

/-- C7: the spec-modelled year selection.  A `selectedYear` present in
the ledger resolves to itself; an absent one falls back to the
lexically-largest year key, which is always one of the available years
and bounds every year key from above; and the resolution yields the
empty-result sentinel exactly when the ledger has no years at all. -/
theorem claim7_year_selection :
    ∀ (sy : Option String) (years : List String),
      (resolveYear sy years = none ↔ years = [])
    ∧ (∀ m, resolveYear sy years = some m → m ∈ availableYears years)
    ∧ (∀ y, sy = some y → y ∈ years → resolveYear sy years = some y)
    ∧ (∀ y, sy = some y → y ∉ years → resolveYear sy years = lexMax years)
    ∧ (∀ m, lexMax years = some m → ∀ z ∈ years, z ≤ m) := by
  intro sy years
  refine ⟨?_, ?_, ?_, ?_, fun m h => lexMax_ge h⟩
  · cases sy with
    | none => simpa [resolveYear] using lexMax_eq_none_iff years
    | some y =>
        simp only [resolveYear]
        by_cases hm : y ∈ years
        · rw [if_pos hm]
          constructor
          · intro h; simp at h
          · intro h; subst h; simp at hm
        · rw [if_neg hm]
          exact lexMax_eq_none_iff years
  · intro m hm
    cases sy with
    | none =>
        simp only [resolveYear] at hm
        exact lexMax_mem hm
    | some y =>
        simp only [resolveYear] at hm
        by_cases hy : y ∈ years
        · rw [if_pos hy] at hm
          simp only [Option.some.injEq] at hm
          exact hm ▸ hy
        · rw [if_neg hy] at hm
          exact lexMax_mem hm
  · intro y hsy hyin
    subst hsy
    simp [resolveYear, if_pos hyin]
  · intro y hsy hynot
    subst hsy
    simp [resolveYear, if_neg hynot]

/-- C7 witness: a selected year absent from the ledger falls back to the
lexically-largest year key of the available years. -/
theorem claim7_witness :
    "2026" ∉ (["2024", "2025"] : List String)
  ∧ resolveYear (some "2026") ["2024", "2025"] = lexMax ["2024", "2025"] :=
  ⟨by decide,
   (claim7_year_selection (some "2026") ["2024", "2025"]).2.2.2.1 "2026" rfl (by decide)⟩

/-! ## Helper lemmas: message substrings and the flat variant -/

theorem includes_append_right (a b n : String) (h : includes b n = true) :
    includes (a ++ b) n = true := by
  simp only [includes, decide_eq_true_eq] at h ⊢
  obtain ⟨s, t, hst⟩ := h
  refine ⟨a.toList ++ s, t, ?_⟩
  have happ : (a ++ b).toList = a.toList ++ b.toList := by
    simp [String.toList, String.data_append]
  rw [happ, ← hst]
  simp [List.append_assoc]

theorem notFound_includes (userId : String) :
    includes (notFoundMsg userId) "not found" = true := by
  have h1 : includes ("\x27 not found in the database.") "not found" = true := by
    decide
  exact includes_append_right _ _ _ h1

theorem emitTxsP1_null :
    ∀ (txs : List TxElem) (i : Nat), TxElem.jnull ∈ txs →
      emitTxsP1 i txs = Except.error typeErrorMsg := by
  intro txs
  induction txs with
  | nil => intro i h; simp at h
  | cons e ts ih =>
      intro i h
      cases e with
      | jnull => rfl
      | obj t =>
          have hts : TxElem.jnull ∈ ts := by
            rcases List.mem_cons.mp h with h1 | h1
            · exact absurd h1 (by simp)
            · exact h1
          simp [emitTxsP1, ih (i + 1) hts]

theorem emitTxsP1_obj :
    ∀ (txs : List TxIn) (i : Nat),
      emitTxsP1 i (txs.map TxElem.obj) = Except.ok (recentTxsP1Aux i txs) := by
  intro txs
  induction txs with
  | nil => intro i; rfl
  | cons t ts ih =>
      intro i
      simp [emitTxsP1, List.map_cons, ih (i + 1), recentTxsP1Aux]

theorem emitTxsP1_no_null :
    ∀ (txs : List TxElem) (i : Nat), TxElem.jnull ∉ txs →
      ∃ rs, emitTxsP1 i txs = Except.ok rs := by
  intro txs
  induction txs with
  | nil => intro i _; exact ⟨[], rfl⟩
  | cons e ts ih =>
      intro i h
      cases e with
      | jnull => exact absurd (List.mem_cons_self ..) h
      | obj t =>
          obtain ⟨rs, hrs⟩ := ih (i + 1) (fun hm => h (List.mem_cons_of_mem _ hm))
          exact ⟨mkRecP1 i t :: rs, by simp [emitTxsP1, hrs]⟩

theorem emitTxsP1_ok_mem :
    ∀ (txs : List TxElem) (i : Nat) (rs : List TxOut),
      emitTxsP1 i txs = Except.ok rs → ∀ t ∈ rs, ∃ j s, t = mkRecP1 j s := by
  intro txs
  induction txs with
  | nil =>
      intro i rs h t ht
      have hnil : rs = [] := by simpa [emitTxsP1] using h.symm
      subst hnil
      simp at ht
  | cons e ts ih =>
      intro i rs h t ht
      cases e with
      | jnull => simp [emitTxsP1] at h
      | obj s =>
          simp only [emitTxsP1] at h
          cases hrec : emitTxsP1 (i + 1) ts with
          | error e' => rw [hrec] at h; simp at h
          | ok rs' =>
              rw [hrec] at h
              simp only [Except.ok.injEq] at h
              subst h
              rcases List.mem_cons.mp ht with rfl | hmem
              · exact ⟨i, s, rfl⟩
              · exact ih (i + 1) rs' hrec t hmem

theorem mkRecP1_type (i : Nat) (s : TxIn) :
    (mkRecP1 i s).type = "inflow" ↔ 0 ≤ (mkRecP1 i s).amount := by
  by_cases h0 : 0 ≤ s.amount.getD 0
  · simp [mkRecP1, h0]
  · simp [mkRecP1, h0]

set_option maxRecDepth 100000 in
/-- C8 (amended): variant P1's engine fails in exactly three ways: the
NotFound error when the user document is absent, always mapped to 404;
the DataShapeError when the `transactions` field is present with a
non-array shape, mapped to the generic 500 response whenever its message
does not contain "not found" (the userId is interpolated into that
message, so a userId containing "not found" is mis-mapped to 404); and
the TypeError thrown by the unguarded `transaction.id` read when the
array contains a `null` or `undefined` element, mapped to 500.  A
present array with no null elements, or an absent field defaulting to an
empty array, always succeeds, its object elements' malformed fields
defaulting to zero/empty. -/
theorem claim8_error_model :
    ∀ (userId : String) (doc : Option UserDocP1),
      (isErrP1 (getDashboardDataP1 userId doc) = true ↔
        doc = none ∨ doc = some ⟨TransField.notArray⟩
          ∨ ∃ txs, doc = some ⟨TransField.arr txs⟩ ∧ TxElem.jnull ∈ txs)
    ∧ (doc = none →
        getDashboardDataP1 userId doc = Except.error (notFoundMsg userId)
        ∧ statusOfP1 (getDashboardDataP1 userId doc) = 404)
    ∧ (doc = some ⟨TransField.notArray⟩ →
        getDashboardDataP1 userId doc = Except.error (shapeErrMsg userId)
        ∧ (includes (shapeErrMsg userId) "not found" = false →
            statusOfP1 (getDashboardDataP1 userId doc) = 500))
    ∧ (∀ txs, doc = some ⟨TransField.arr txs⟩ → TxElem.jnull ∈ txs →
        getDashboardDataP1 userId doc = Except.error typeErrorMsg
        ∧ statusOfP1 (getDashboardDataP1 userId doc) = 500)
    ∧ (∀ txs, doc = some ⟨TransField.arr txs⟩ → TxElem.jnull ∉ txs →
        ∃ recs, recentTxsP1 txs = Except.ok recs
          ∧ getDashboardDataP1 userId doc = Except.ok (mkReportP1 txs recs))
    ∧ (doc = some ⟨TransField.missing⟩ →
        getDashboardDataP1 userId doc = Except.ok (mkReportP1 [] [])) := by
  intro userId doc
  have hte : includes typeErrorMsg "not found" = false := by decide
  refine ⟨?_, ?_, ?_, ?_, ?_, ?_⟩
  · cases doc with
    | none => simp [getDashboardDataP1, isErrP1]
    | some d =>
        obtain ⟨tf⟩ := d
        cases tf with
        | missing => simp [getDashboardDataP1, recentTxsP1, emitTxsP1, isErrP1]
        | notArray => simp [getDashboardDataP1, isErrP1]
        | arr txs =>
            by_cases hn : TxElem.jnull ∈ txs
            · simp [getDashboardDataP1, recentTxsP1, emitTxsP1_null txs 0 hn,
                isErrP1, hn]
            · obtain ⟨rs, hrs⟩ := emitTxsP1_no_null txs 0 hn
              simp [getDashboardDataP1, recentTxsP1, hrs, isErrP1, hn]
  · intro h
    subst h
    exact ⟨rfl, by simp [getDashboardDataP1, statusOfP1, notFound_includes userId]⟩
  · intro h
    subst h
    refine ⟨rfl, fun hni => ?_⟩
    simp [getDashboardDataP1, statusOfP1, hni]
  · intro txs h hn
    subst h
    have he := emitTxsP1_null txs 0 hn
    constructor
    · simp [getDashboardDataP1, recentTxsP1, he]
    · simp [getDashboardDataP1, recentTxsP1, he, statusOfP1, hte]
  · intro txs h hn
    subst h
    obtain ⟨rs, hrs⟩ := emitTxsP1_no_null txs 0 hn
    exact ⟨rs, hrs, by simp [getDashboardDataP1, recentTxsP1, hrs]⟩
  · intro h
    subst h
    rfl

set_option maxRecDepth 100000 in
/-- C8 counterexample: two concrete inputs falsify the claim as stated.
An array containing a null element makes the engine fail with the
TypeError of the unguarded `transaction.id` read — a third failure mode
distinct from NotFound and DataShapeError, in which a per-entry
malformed datum raises instead of defaulting to zero.  And for the
userId "not found", the DataShapeError is mapped to 404 instead of the
claimed generic server-error response, because the interpolated userId
makes the message contain "not found". -/
theorem claim8_counterexample :
    getDashboardDataP1 "u1" (some ⟨TransField.arr [TxElem.jnull]⟩)
        = Except.error typeErrorMsg
  ∧ typeErrorMsg ≠ notFoundMsg "u1"
  ∧ typeErrorMsg ≠ shapeErrMsg "u1"
  ∧ statusOfP1 (getDashboardDataP1 "u1" (some ⟨TransField.arr [TxElem.jnull]⟩)) = 500
  ∧ getDashboardDataP1 "not found" (some ⟨TransField.notArray⟩)
        = Except.error (shapeErrMsg "not found")
  ∧ statusOfP1 (getDashboardDataP1 "not found" (some ⟨TransField.notArray⟩)) = 404 :=
  ⟨rfl, by decide, by decide, by decide, rfl, by decide⟩

set_option maxRecDepth 100000 in
/-- C8 witness: for an ordinary userId the DataShapeError is mapped to
the generic 500 response, and a null-free array succeeds. -/
theorem claim8_witness :
    includes (shapeErrMsg "u1") "not found" = false
  ∧ statusOfP1 (getDashboardDataP1 "u1" (some ⟨TransField.notArray⟩)) = 500
  ∧ (∃ recs, recentTxsP1 [TxElem.obj ⟨none, none, some 5⟩] = Except.ok recs
      ∧ getDashboardDataP1 "u2" (some ⟨TransField.arr [TxElem.obj ⟨none, none, some 5⟩]⟩)
          = Except.ok (mkReportP1 [TxElem.obj ⟨none, none, some 5⟩] recs)) :=
  ⟨by decide,
   ((claim8_error_model "u1" (some ⟨TransField.notArray⟩)).2.2.1 rfl).2 (by decide),
   (claim8_error_model "u2"
       (some ⟨TransField.arr [TxElem.obj ⟨none, none, some 5⟩]⟩)).2.2.2.2.1
     [TxElem.obj ⟨none, none, some 5⟩] rfl (by decide)⟩

theorem recentTxsP1Aux_length :
    ∀ (txs : List TxIn) (i : Nat), (recentTxsP1Aux i txs).length = txs.length := by
  intro txs
  induction txs with
  | nil => intro i; rfl
  | cons t ts ih => intro i; simp [recentTxsP1Aux, ih]

theorem recentTxsP1Aux_forall₂ :
    ∀ (txs : List TxIn) (i : Nat),
      List.Forall₂ (fun t r =>
          r.amount = t.amount.getD 0
        ∧ (t.amount = none → r.amount = 0 ∧ r.type = "inflow"))
        txs (recentTxsP1Aux i txs) := by
  intro txs
  induction txs with
  | nil => intro i; exact List.Forall₂.nil
  | cons t ts ih =>
      intro i
      refine List.Forall₂.cons ⟨rfl, fun hnone => ?_⟩ (ih (i + 1))
      simp [mkRecP1, hnone]

theorem totalRevenueP1_aux :
    ∀ (txs : List TxIn) (s : Int),
      txs.foldl
        (fun s t =>
          match t.amount with
          | some x => if 0 < x then s + x else s
          | none => s) s
        = s + ((txs.filterMap (fun t => t.amount)).filter (fun x => decide (0 < x))).sum := by
  intro txs
  induction txs with
  | nil => intro s; simp
  | cons t ts ih =>
      intro s
      cases ht : t.amount with
      | none => simp [List.foldl_cons, ht, List.filterMap_cons, ih]
      | some x =>
          by_cases hx : 0 < x
          · simp [List.foldl_cons, ht, List.filterMap_cons, List.filter_cons, hx, ih,
              add_assoc]
          · simp [List.foldl_cons, ht, List.filterMap_cons, List.filter_cons, hx, ih]

theorem totalRevenueP1_obj (txs : List TxIn) :
    totalRevenueP1 (txs.map TxElem.obj)
      = ((txs.filterMap (fun t => t.amount)).filter (fun x => decide (0 < x))).sum := by
  simp only [totalRevenueP1, List.foldl_map]
  simpa using totalRevenueP1_aux txs 0

/-- C9 (amended): in the flat transactions-array variant, every OBJECT
element emits exactly one record — a missing or non-numeric amount is
emitted as amount 0 with type "inflow" (0 is at least 0), and
`totalRevenue` sums exactly the amounts that are numbers strictly
greater than 0 — but an array containing a `null` or `undefined`
element emits no record list at all: the unguarded `transaction.id`
read throws a TypeError and the request fails. -/
theorem claim9_flat_emission :
    (∀ txs : List TxIn, ∃ recs,
        recentTxsP1 (txs.map TxElem.obj) = Except.ok recs
      ∧ recs.length = txs.length
      ∧ List.Forall₂ (fun t r =>
            r.amount = t.amount.getD 0
          ∧ (t.amount = none → r.amount = 0 ∧ r.type = "inflow")) txs recs
      ∧ totalRevenueP1 (txs.map TxElem.obj)
          = ((txs.filterMap (fun t => t.amount)).filter (fun x => decide (0 < x))).sum)
  ∧ (∀ txs : List TxElem, TxElem.jnull ∈ txs →
      recentTxsP1 txs = Except.error typeErrorMsg) := by
  constructor
  · intro txs
    exact ⟨recentTxsP1Aux 0 txs, emitTxsP1_obj txs 0, recentTxsP1Aux_length txs 0,
      recentTxsP1Aux_forall₂ txs 0, totalRevenueP1_obj txs⟩
  · intro txs hn
    exact emitTxsP1_null txs 0 hn

/-- C9 counterexample: on the concrete array `[null]` the source throws
the TypeError at the unguarded `transaction.id` read, so the malformed
element emits no recent-transaction record and the whole request fails —
refuting "every element emits exactly one record even when malformed". -/
theorem claim9_counterexample :
    recentTxsP1 [TxElem.jnull] = Except.error typeErrorMsg
  ∧ getDashboardDataP1 "u1" (some ⟨TransField.arr [TxElem.jnull]⟩)
      = Except.error typeErrorMsg :=
  ⟨rfl, rfl⟩

/-- C9 witness: the null law applied to a concrete two element array. -/
theorem claim9_witness :
    TxElem.jnull ∈ [TxElem.jnull, TxElem.obj ⟨none, none, some 7⟩]
  ∧ recentTxsP1 [TxElem.jnull, TxElem.obj ⟨none, none, some 7⟩]
      = Except.error typeErrorMsg :=
  ⟨by decide,
   claim9_flat_emission.2 [TxElem.jnull, TxElem.obj ⟨none, none, some 7⟩] (by decide)⟩

/-- C3: in the taxonomy variant (variant 1), every emitted
recent-transaction record has a strictly positive amount (zero, negative
and non-numeric daily values never emit), and its type is "inflow"
exactly when its category key belongs to an income group of the
taxonomy; this holds both before and after the sort-and-truncate step.
In the flat transactions-array variant, every record of a successfully
emitted record list has type "inflow" exactly when its (coerced) amount
is at least 0. -/
theorem claim3_direction :
    (∀ (L : Ledger) (t : TxV1), t ∈ recentTxsFullV1 L →
        0 < t.amount ∧ (t.type = "inflow" ↔ t.catKey ∈ allIncomeKeys))
  ∧ (∀ (L : Ledger) (t : TxV1), t ∈ sortedTransactionsV1 L →
        0 < t.amount ∧ (t.type = "inflow" ↔ t.catKey ∈ allIncomeKeys))
  ∧ (∀ (txs : List TxElem) (recs : List TxOut) (t : TxOut),
        recentTxsP1 txs = Except.ok recs → t ∈ recs →
        (t.type = "inflow" ↔ 0 ≤ t.amount)) := by
  have hfull : ∀ (L : Ledger) (t : TxV1), t ∈ recentTxsFullV1 L →
      0 < t.amount ∧ (t.type = "inflow" ↔ t.catKey ∈ allIncomeKeys) := by
    intro L t ht
    unfold recentTxsFullV1 at ht
    rw [List.mem_flatMap] at ht
    obtain ⟨e, _, htm⟩ := ht
    unfold monthTxsV1 at htm
    rcases List.mem_append.mp htm with hin | hout
    · unfold incomeTxsV1 at hin
      rw [List.mem_flatMap] at hin
      obtain ⟨k, hk, hin⟩ := hin
      rw [List.mem_filterMap] at hin
      obtain ⟨p, _, hps⟩ := hin
      by_cases hpos : 0 < jnum p.2
      · rw [if_pos hpos] at hps
        obtain rfl := Option.some.inj hps
        exact ⟨hpos, Iff.intro (fun _ => hk) (fun _ => rfl)⟩
      · rw [if_neg hpos] at hps
        exact absurd hps (by simp)
    · have hdisj : ∀ g ∈ expenseGroupsV1, ∀ k ∈ g.2, k ∉ allIncomeKeys := by decide
      unfold expenseTxsV1 at hout
      rw [List.mem_flatMap] at hout
      obtain ⟨g, hg, hout⟩ := hout
      rw [List.mem_flatMap] at hout
      obtain ⟨k, hk, hout⟩ := hout
      rw [List.mem_filterMap] at hout
      obtain ⟨p, _, hps⟩ := hout
      by_cases hpos : 0 < jnum p.2
      · rw [if_pos hpos] at hps
        obtain rfl := Option.some.inj hps
        refine ⟨hpos, Iff.intro (fun hty => ?_) (fun hmem => ?_)⟩
        · exact absurd hty (by simp)
        · exact absurd hmem (hdisj g hg k hk)
      · rw [if_neg hpos] at hps
        exact absurd hps (by simp)
  refine ⟨hfull, ?_, ?_⟩
  · intro L t ht
    have h1 : t ∈ (recentTxsFullV1 L).mergeSort dateLe :=
      (List.take_sublist 7 _).subset ht
    exact hfull L t ((List.mergeSort_perm (recentTxsFullV1 L) dateLe).mem_iff.mp h1)
  · intro txs recs t hok ht
    obtain ⟨j, s, rfl⟩ := emitTxsP1_ok_mem txs 0 recs hok t ht
    exact mkRecP1_type j s

/-- C3 witness: the income record emitted for the cash sale of the plain
one-month ledger has a positive amount, and its type "inflow" matches its
key's membership in the income groups. -/
theorem claim3_witness :
    (⟨"2025-0-0-sales_cash-in", "sales cash", 3, "inflow", "sales_cash", 2025, 0, 0⟩ : TxV1)
      ∈ recentTxsFullV1 plainLedger
  ∧ 0 < (⟨"2025-0-0-sales_cash-in", "sales cash", 3, "inflow", "sales_cash", 2025, 0, 0⟩ : TxV1).amount
  ∧ ((⟨"2025-0-0-sales_cash-in", "sales cash", 3, "inflow", "sales_cash", 2025, 0, 0⟩ : TxV1).type = "inflow"
      ↔ (⟨"2025-0-0-sales_cash-in", "sales cash", 3, "inflow", "sales_cash", 2025, 0, 0⟩ : TxV1).catKey ∈ allIncomeKeys) := by
  refine ⟨by decide, ?_⟩
  exact claim3_direction.1 plainLedger
    (⟨"2025-0-0-sales_cash-in", "sales cash", 3, "inflow", "sales_cash", 2025, 0, 0⟩ : TxV1)
    (by decide)

/-! ## Helper lemmas: ledger iteration and the variant 1 accumulators -/

theorem ledgerMonths_cons (y : Nat) (ms : List (Nat × MonthRecord)) (L : Ledger) :
    ledgerMonths ((y, ms) :: L)
      = ms.map (fun mm => (y, mm.1, mm.2)) ++ ledgerMonths L := by
  simp [ledgerMonths, List.flatMap_cons]

theorem foldl_id {α β : Type} (f : β → α → β) (l : List α)
    (h : ∀ a x, x ∈ l → f a x = a) : ∀ acc, l.foldl f acc = acc := by
  induction l with
  | nil => intro acc; rfl
  | cons x xs ih =>
      intro acc
      rw [List.foldl_cons, h acc x (List.mem_cons_self ..)]
      exact ih (fun a z hz => h a z (List.mem_cons_of_mem _ hz)) acc

theorem expCat_month_skip {cy : Nat} (e : Nat × Nat × MonthRecord)
    (hcy : e.1 ≠ cy) (acc : List (String × Int)) :
    expenseGroupsV1.foldl
      (fun acc2 g =>
        if 0 < groupSumV1 (catsOf e.2.2) g.2 then
          if e.1 = cy then updCat acc2 g.1 (groupSumV1 (catsOf e.2.2) g.2)
          else acc2
        else acc2) acc = acc := by
  refine foldl_id _ _ (fun a g _ => ?_) acc
  rw [if_neg hcy]
  exact ite_self a

theorem mem_updBreak_keys (b : List ((Nat × Nat) × Int × Int)) (k : Nat × Nat)
    (i e : Int) (k' : Nat × Nat) :
    k' ∈ (updBreak b k i e).map Prod.fst
      ↔ k' ∈ b.map Prod.fst ∨ k' = k := by
  induction b with
  | nil => simp [updBreak]
  | cons x xs ih =>
      by_cases hx : x.1 = k
      · subst hx
        simp only [updBreak, if_true, eq_self_iff_true, List.map_cons, List.mem_cons]
        tauto
      · simp only [updBreak, hx, if_false, List.map_cons, List.mem_cons, ih]
        tauto

theorem mem_foldBreak_keys :
    ∀ (l : List (Nat × Nat × MonthRecord)) (b : List ((Nat × Nat) × Int × Int))
      (k' : Nat × Nat),
      k' ∈ ((l.foldl
              (fun b e => updBreak b (e.1, e.2.1)
                (monthIncomeV1 (catsOf e.2.2)) (monthExpenseV1 (catsOf e.2.2))) b).map
                  Prod.fst)
        ↔ k' ∈ b.map Prod.fst ∨ k' ∈ l.map (fun e => (e.1, e.2.1)) := by
  intro l
  induction l with
  | nil => intro b k'; simp
  | cons e es ih =>
      intro b k'
      rw [List.foldl_cons, ih, mem_updBreak_keys]
      simp only [List.map_cons, List.mem_cons]
      tauto

/-- C10: in variant 1, a ledger year other than the current calendar
year contributes nothing to the `expenseByCategory` composition map
(which feeds the expense-composition chart), while its months still
extend the recent-transactions feed, the transaction counters, and the
`monthlyBreakdown` keys that the monthly-comparison and net-profit-trend
series are built over. -/
theorem claim10_year_scope :
    ∀ (L : Ledger) (cy y : Nat) (ms : List (Nat × MonthRecord)),
      y ≠ cy →
      expenseByCategoryV1 ((y, ms) :: L) cy = expenseByCategoryV1 L cy
    ∧ recentTxsFullV1 ((y, ms) :: L)
        = ms.flatMap (fun mm => monthTxsV1 y mm.1 mm.2) ++ recentTxsFullV1 L
    ∧ totalTransactionsV1 ((y, ms) :: L)
        = (ms.flatMap (fun mm => monthTxsV1 y mm.1 mm.2)).length
            + totalTransactionsV1 L
    ∧ (∀ mm ∈ ms, (y, mm.1) ∈ (monthlyBreakdownV1 ((y, ms) :: L)).map Prod.fst) := by
  intro L cy y ms hy
  have hfeed : recentTxsFullV1 ((y, ms) :: L)
      = ms.flatMap (fun mm => monthTxsV1 y mm.1 mm.2) ++ recentTxsFullV1 L := by
    simp [recentTxsFullV1, ledgerMonths_cons, List.flatMap_append, List.flatMap_map,
      Function.comp]
  refine ⟨?_, hfeed, ?_, ?_⟩
  · unfold expenseByCategoryV1
    rw [ledgerMonths_cons, List.foldl_append]
    have hskip : (ms.map (fun mm => (y, mm.1, mm.2))).foldl
        (fun acc e =>
          expenseGroupsV1.foldl
            (fun acc2 g =>
              if 0 < groupSumV1 (catsOf e.2.2) g.2 then
                if e.1 = cy then updCat acc2 g.1 (groupSumV1 (catsOf e.2.2) g.2)
                else acc2
              else acc2) acc) [] = [] := by
      refine foldl_id _ _ (fun acc e he => ?_) []
      obtain ⟨mm, _, rfl⟩ := List.mem_map.mp he
      exact expCat_month_skip _ hy acc
    rw [hskip]
  · unfold totalTransactionsV1
    rw [hfeed, List.length_append]
  · intro mm hmm
    unfold monthlyBreakdownV1
    rw [mem_foldBreak_keys]
    refine Or.inr ?_
    rw [ledgerMonths_cons, List.map_append, List.mem_append]
    refine Or.inl ?_
    rw [List.map_map]
    exact List.mem_map.mpr ⟨mm, hmm, rfl⟩

/-- C10 witness: a 2024 ledger entry leaves the current-year (2025)
composition map unchanged. -/
theorem claim10_witness :
    (2024 ≠ 2025)
  ∧ expenseByCategoryV1 ((2024, [(0, oneSaleMonth)]) :: plainLedger) 2025
      = expenseByCategoryV1 plainLedger 2025 :=
  ⟨by decide,
   (claim10_year_scope plainLedger 2025 2024 [(0, oneSaleMonth)] (by decide)).1⟩

/-! ## Helper lemmas: the stable date sort -/

theorem dateLe_trans (a b c : TxV1) (hab : dateLe a b = true)
    (hbc : dateLe b c = true) : dateLe a c = true := by
  simp only [dateLe, Bool.or_eq_true, Bool.and_eq_true, decide_eq_true_eq] at hab hbc ⊢
  omega

theorem dateLe_total (a b : TxV1) : (dateLe a b || dateLe b a) = true := by
  simp only [dateLe, Bool.or_eq_true, Bool.and_eq_true, decide_eq_true_eq]
  omega

theorem mergeSort_filter_eq {α : Type} (le : α → α → Bool)
    (htr : ∀ a b c, le a b = true → le b c = true → le a c = true)
    (hto : ∀ a b, (le a b || le b a) = true)
    (p : α → Bool) (hp : ∀ a b, p a = true → p b = true → le a b = true)
    (l : List α) :
    (l.mergeSort le).filter p = l.filter p := by
  have hsub : (l.filter p).Sublist l := List.filter_sublist l
  have hpair : List.Pairwise (fun a b => le a b = true) (l.filter p) := by
    refine List.pairwise_of_forall_mem_list ?_
    intro a ha b hb
    exact hp a b (List.mem_filter.mp ha).2 (List.mem_filter.mp hb).2
  have hsub2 : (l.filter p).Sublist (l.mergeSort le) :=
    List.mergeSort_stable htr hto hpair hsub
  have hperm : ((l.mergeSort le).filter p).Perm (l.filter p) :=
    (List.mergeSort_perm l le).filter p
  have hsub3 : (l.filter p).Sublist ((l.mergeSort le).filter p) := by
    have h := hsub2.filter p
    simpa [List.filter_filter] using h
  exact (hsub3.eq_of_length hperm.length_eq.symm).symm

theorem filter_take_ex {α : Type} (p : α → Bool) :
    ∀ (l : List α) (n : Nat), ∃ k, (l.take n).filter p = (l.filter p).take k := by
  intro l
  induction l with
  | nil => intro n; exact ⟨0, by simp⟩
  | cons x xs ih =>
      intro n
      cases n with
      | zero => exact ⟨0, by simp⟩
      | succ n =>
          obtain ⟨k, hk⟩ := ih n
          by_cases hp : p x
          · exact ⟨k + 1, by
              simp [List.take_succ_cons, List.filter_cons, hp, hk]⟩
          · exact ⟨k, by
              simp [List.take_succ_cons, List.filter_cons, hp, hk]⟩

theorem sliceLast_reverse {α : Type} (n : Nat) (l : List α) :
    (sliceLast n l).reverse = l.reverse.take n := by
  unfold sliceLast
  rw [List.reverse_drop]
  by_cases h : n ≤ l.length
  · congr 1
    omega
  · have h1 : l.length - (l.length - n) = l.length := by omega
    rw [h1, List.take_of_length_le (by rw [List.length_reverse]),
      List.take_of_length_le (by rw [List.length_reverse]; omega)]

theorem sliceLast_length {α : Type} (n : Nat) (l : List α) :
    (sliceLast n l).length = min n l.length := by
  simp only [sliceLast, List.length_drop]
  omega

/-- C4 (amended): variant 1 alone sorts the feed by date descending
before truncating to 7 — its output is date-sorted, has length
`min 7 (feed length)`, and is stable: the records carrying any fixed
date appear as a prefix of the same-date records of the feed in
insertion order.  The revenue variant (P0) and the flat variant (P1)
instead return the last 5 emitted records in reverse insertion order
(`slice(-5).reverse()`, shown here on the record list its push loop
emitted), which is not a date sort — their records do not even carry a
date field. -/
theorem claim4_sort_truncate :
    (∀ L : Ledger,
        List.Pairwise (fun a b => dateLe a b = true) (sortedTransactionsV1 L)
      ∧ (sortedTransactionsV1 L).length = min 7 (recentTxsFullV1 L).length
      ∧ (∀ y m d : Nat, ∃ k,
          (sortedTransactionsV1 L).filter
              (fun t => decide (t.year = y ∧ t.month = m ∧ t.day = d))
            = ((recentTxsFullV1 L).filter
                (fun t => decide (t.year = y ∧ t.month = m ∧ t.day = d))).take k))
  ∧ (∀ L : Ledger, recentTransactionsP0 L = (recentTxsFullP0 L).reverse.take 5)
  ∧ (∀ (txs : List TxElem) (recs : List TxOut),
      (mkReportP1 txs recs).recentTransactions = recs.reverse.take 5) := by
  refine ⟨fun L => ⟨?_, ?_, ?_⟩, fun L => sliceLast_reverse 5 _,
    fun txs recs => sliceLast_reverse 5 recs⟩
  · refine List.Pairwise.sublist (List.take_sublist 7 _) ?_
    exact List.sorted_mergeSort dateLe_trans dateLe_total (recentTxsFullV1 L)
  · simp [sortedTransactionsV1, List.length_take, List.length_mergeSort]
  · intro y m d
    obtain ⟨k, hk⟩ := filter_take_ex
      (fun t => decide (t.year = y ∧ t.month = m ∧ t.day = d))
      ((recentTxsFullV1 L).mergeSort dateLe) 7
    refine ⟨k, ?_⟩
    rw [sortedTransactionsV1, hk,
      mergeSort_filter_eq dateLe dateLe_trans dateLe_total _ ?_]
    intro a b ha hb
    simp only [decide_eq_true_eq] at ha hb
    simp only [dateLe, Bool.or_eq_true, Bool.and_eq_true, decide_eq_true_eq]
    omega

set_option maxRecDepth 100000 in
/-- C4 counterexample: on a one-month ledger with two revenue categories,
the revenue variant's output `slice(-5).reverse()` is not sorted by date
descending: a day-0 record precedes a day-1 record. -/
theorem claim4_counterexample :
    ¬ List.Pairwise (fun a b => dateLeP0 a b = true) (recentTransactionsP0 p0ledger) := by
  decide

/-- C4 witness: the truncated length law of variant 1 applied to the
plain one-month ledger. -/
theorem claim4_witness :
    (sortedTransactionsV1 plainLedger).length = min 7 (recentTxsFullV1 plainLedger).length :=
  (claim4_sort_truncate.1 plainLedger).2.1

/-! ## Helper lemmas: month-key ordering and breakdown keys -/

theorem monthKeyLe_trans (a b c : Nat × Nat) (hab : monthKeyLe a b = true)
    (hbc : monthKeyLe b c = true) : monthKeyLe a c = true := by
  simp only [monthKeyLe, Bool.or_eq_true, Bool.and_eq_true, decide_eq_true_eq] at hab hbc ⊢
  omega

theorem monthKeyLe_total (a b : Nat × Nat) : (monthKeyLe a b || monthKeyLe b a) = true := by
  simp only [monthKeyLe, Bool.or_eq_true, Bool.and_eq_true, decide_eq_true_eq]
  omega

theorem monthKeyLt_of_le_ne {a b : Nat × Nat} (hle : monthKeyLe a b = true)
    (hne : a ≠ b) : monthKeyLt a b := by
  obtain ⟨a1, a2⟩ := a
  obtain ⟨b1, b2⟩ := b
  simp only [monthKeyLe, Bool.or_eq_true, Bool.and_eq_true, decide_eq_true_eq] at hle
  simp only [ne_eq, Prod.mk.injEq, not_and] at hne
  have hgoal : a1 < b1 ∨ (a1 = b1 ∧ a2 < b2) := by
    by_cases h1 : a1 = b1
    · subst h1
      have h2 : a2 ≠ b2 := hne rfl
      omega
    · omega
  simpa [monthKeyLt] using hgoal

theorem monthKeyLt_ne {a b : Nat × Nat} (h : monthKeyLt a b) : a ≠ b := by
  obtain ⟨a1, a2⟩ := a
  obtain ⟨b1, b2⟩ := b
  simp only [monthKeyLt, Prod.fst, Prod.snd] at h
  simp only [ne_eq, Prod.mk.injEq, not_and]
  intro h1
  subst h1
  omega

theorem updBreak_keys (b : List ((Nat × Nat) × Int × Int)) (k : Nat × Nat) (i e : Int) :
    (updBreak b k i e).map Prod.fst
      = if k ∈ b.map Prod.fst then b.map Prod.fst else b.map Prod.fst ++ [k] := by
  induction b with
  | nil => simp [updBreak]
  | cons x xs ih =>
      by_cases hx : x.1 = k
      · subst hx
        simp [updBreak, List.map_cons]
      · simp only [updBreak, hx, if_false, List.map_cons, ih]
        by_cases hm : k ∈ xs.map Prod.fst
        · rw [if_pos hm, if_pos (List.mem_cons_of_mem _ hm)]
        · rw [if_neg hm, if_neg ?_, List.cons_append]
          simp only [List.mem_cons, not_or]
          exact ⟨fun hk => hx hk.symm, hm⟩

theorem nodup_foldBreak :
    ∀ (l : List (Nat × Nat × MonthRecord)) (b : List ((Nat × Nat) × Int × Int)),
      (b.map Prod.fst).Nodup →
      (((l.foldl
          (fun b e => updBreak b (e.1, e.2.1)
            (monthIncomeV1 (catsOf e.2.2)) (monthExpenseV1 (catsOf e.2.2))) b)).map
              Prod.fst).Nodup := by
  intro l
  induction l with
  | nil => intro b hb; exact hb
  | cons e es ih =>
      intro b hb
      rw [List.foldl_cons]
      refine ih _ ?_
      rw [updBreak_keys]
      by_cases hm : (e.1, e.2.1) ∈ b.map Prod.fst
      · rw [if_pos hm]; exact hb
      · rw [if_neg hm]
        simp only [List.nodup_append, List.nodup_cons, List.not_mem_nil, not_false_iff,
          List.nodup_nil, and_true, List.disjoint_singleton]
        exact ⟨hb, by simpa using fun h => hm h⟩

theorem foldAssoc_keys {α : Type} (f : Nat × Nat × MonthRecord → α) :
    ∀ (l : List (Nat × Nat × MonthRecord)) (b : List ((Nat × Nat) × α)),
      (b.map Prod.fst ++ l.map (fun e => (e.1, e.2.1))).Nodup →
      ((l.foldl (fun b e => assocSet b (e.1, e.2.1) (f e)) b).map Prod.fst)
        = b.map Prod.fst ++ l.map (fun e => (e.1, e.2.1)) := by
  intro l
  induction l with
  | nil => intro b _; simp
  | cons e es ih =>
      intro b hb
      rw [List.map_cons] at hb
      have hkey : (e.1, e.2.1) ∉ b.map Prod.fst := by
        intro h
        exact (List.nodup_append.mp hb).2.2 h (List.mem_cons_self ..)
      have hkeys : (assocSet b (e.1, e.2.1) (f e)).map Prod.fst
          = b.map Prod.fst ++ [(e.1, e.2.1)] := by
        clear hb ih
        induction b with
        | nil => simp [assocSet]
        | cons x xs ihb =>
            have hx : x.1 ≠ (e.1, e.2.1) := by
              intro h
              exact hkey (h ▸ List.mem_cons_self ..)
            simp only [List.map_cons, List.mem_cons, not_or] at hkey
            simp only [assocSet, if_neg hx, List.map_cons, ihb hkey.2, List.cons_append]
      rw [List.map_cons, List.foldl_cons, ih _ ?_, hkeys]
      · rw [List.append_assoc, List.singleton_append]
      · rw [hkeys, List.append_assoc, List.singleton_append]
        simpa using hb

/-- C2 (amended): the six-entry trend windows are built from the
populated months only.  In variant 1 the monthly-comparison series is
the chronologically sorted list of distinct populated month keys cut to
its last six: it is strictly increasing, every entry is a month actually
present in the ledger (no zero-valued entry is ever inserted for a
missing calendar month), and its length is `min 6 (number of populated
months)`.  Variant 2's expense-trend series behaves the same way on a
ledger iterated in ascending `(year, month)` order. -/
theorem claim2_window :
    (∀ L : Ledger,
        List.Pairwise monthKeyLt ((monthlyComparisonDataV1 L).map Prod.fst)
      ∧ (∀ k ∈ (monthlyComparisonDataV1 L).map Prod.fst,
            k ∈ (ledgerMonths L).map (fun e => (e.1, e.2.1)))
      ∧ (monthlyComparisonDataV1 L).length = min 6 (monthlyBreakdownV1 L).length)
  ∧ (∀ L : Ledger,
        List.Pairwise monthKeyLt ((ledgerMonths L).map (fun e => (e.1, e.2.1))) →
        List.Pairwise monthKeyLt ((expenseTrendDataV2 L).map Prod.fst)
      ∧ (∀ k ∈ (expenseTrendDataV2 L).map Prod.fst,
            k ∈ (ledgerMonths L).map (fun e => (e.1, e.2.1)))
      ∧ (expenseTrendDataV2 L).length = min 6 (monthlyBreakdownV2 L).length) := by
  have hfst1 : ∀ L : Ledger,
      (monthlyComparisonDataV1 L).map Prod.fst = sliceLast 6 (sortedMonthsV1 L) := by
    intro L
    rw [monthlyComparisonDataV1, List.map_map]
    have hid : ∀ k ∈ sliceLast 6 (sortedMonthsV1 L),
        (Prod.fst ∘ fun k => (k, breakLookup (monthlyBreakdownV1 L) k)) k = id k :=
      fun k _ => rfl
    rw [List.map_congr_left hid, List.map_id]
  have hfst2 : ∀ L : Ledger,
      (expenseTrendDataV2 L).map Prod.fst = sliceLast 6 (sortedMonthsV2 L) := by
    intro L
    rw [expenseTrendDataV2, List.map_map]
    have hid : ∀ k ∈ sliceLast 6 (sortedMonthsV2 L),
        (Prod.fst ∘ fun k =>
          (k, match (expenseTrendBreakdownV2 L).find? (fun e => e.1 == k) with
              | some e => e.2
              | none => [])) k = id k :=
      fun k _ => rfl
    rw [List.map_congr_left hid, List.map_id]
  constructor
  · intro L
    have hnodupB : ((monthlyBreakdownV1 L).map Prod.fst).Nodup := by
      unfold monthlyBreakdownV1
      exact nodup_foldBreak (ledgerMonths L) [] (by simp)
    have hsorted : List.Pairwise (fun a b => monthKeyLe a b = true) (sortedMonthsV1 L) :=
      List.sorted_mergeSort monthKeyLe_trans monthKeyLe_total _
    have hnodupS : (sortedMonthsV1 L).Nodup :=
      (List.mergeSort_perm ((monthlyBreakdownV1 L).map Prod.fst) monthKeyLe).symm.nodup
        hnodupB
    have hlt : List.Pairwise monthKeyLt (sortedMonthsV1 L) := by
      refine (hsorted.and hnodupS).imp ?_
      intro a b hab
      exact monthKeyLt_of_le_ne hab.1 hab.2
    refine ⟨?_, ?_, ?_⟩
    · rw [hfst1]
      exact hlt.sublist (List.drop_sublist _ _)
    · intro k hk
      rw [hfst1] at hk
      have hk1 : k ∈ sortedMonthsV1 L := (List.drop_sublist _ _).subset hk
      have hk2 : k ∈ (monthlyBreakdownV1 L).map Prod.fst :=
        (List.mergeSort_perm _ monthKeyLe).mem_iff.mp hk1
      have hk3 := (mem_foldBreak_keys (ledgerMonths L) [] k).mp hk2
      simpa using hk3
    · have hlen : (monthlyComparisonDataV1 L).length
          = (sliceLast 6 (sortedMonthsV1 L)).length := by
        rw [← hfst1, List.length_map]
      rw [hlen, sliceLast_length, sortedMonthsV1, List.length_mergeSort, List.length_map]
  · intro L hasc
    have hnodupM : ((ledgerMonths L).map (fun e => (e.1, e.2.1))).Nodup :=
      hasc.imp (fun h => monthKeyLt_ne h)
    have hkeys2 : sortedMonthsV2 L = (ledgerMonths L).map (fun e => (e.1, e.2.1)) := by
      unfold sortedMonthsV2 monthlyBreakdownV2
      exact foldAssoc_keys
        (fun e => (monthTotalIncomeV2 (catsOf e.2.2), monthTotalExpenseV2 (catsOf e.2.2)))
        (ledgerMonths L) [] (by simpa using hnodupM)
    refine ⟨?_, ?_, ?_⟩
    · rw [hfst2, hkeys2]
      exact hasc.sublist (List.drop_sublist _ _)
    · intro k hk
      rw [hfst2, hkeys2] at hk
      exact (List.drop_sublist _ _).subset hk
    · have hlen : (expenseTrendDataV2 L).length
          = (sliceLast 6 (sortedMonthsV2 L)).length := by
        rw [← hfst2, List.length_map]
      rw [hlen, sliceLast_length, sortedMonthsV2, List.length_map]

set_option maxRecDepth 100000 in
/-- C2 counterexample: a ledger populated for January, February and
March of 2024 and of 2025 has six populated months, and the
monthly-comparison series indeed has length 6, but it skips the
half-year calendar gap between the two blocks instead of covering every
month of the window with zero entries: consecutive series entries are
not consecutive calendar months, and the empty month (2024, 3) gets no
entry at all. -/
theorem claim2_counterexample :
    (monthlyComparisonDataV1 gapLedger).length = 6
  ∧ ((monthlyComparisonDataV1 gapLedger).map Prod.fst)[2]? = some (2024, 2)
  ∧ ((monthlyComparisonDataV1 gapLedger).map Prod.fst)[3]? = some (2025, 0)
  ∧ ¬ consecMonth (2024, 2) (2025, 0)
  ∧ (2024, 3) ∉ (monthlyComparisonDataV1 gapLedger).map Prod.fst := by
  have h1 : (monthlyBreakdownV1 gapLedger).map Prod.fst
      = [(2024, 0), (2024, 1), (2024, 2), (2025, 0), (2025, 1), (2025, 2)] := by
    decide
  have h2 : sortedMonthsV1 gapLedger
      = [(2024, 0), (2024, 1), (2024, 2), (2025, 0), (2025, 1), (2025, 2)] := by
    rw [sortedMonthsV1, h1]
    exact List.mergeSort_of_sorted (by decide)
  refine ⟨?_, ?_, ?_, ?_, ?_⟩
  · rw [monthlyComparisonDataV1, h2]
    decide
  · rw [monthlyComparisonDataV1, h2]
    decide
  · rw [monthlyComparisonDataV1, h2]
    decide
  · decide
  · rw [monthlyComparisonDataV1, h2]
    decide

/-- C2 witness: the variant 2 window law applied to an ascending
one-month ledger. -/
theorem claim2_witness :
    List.Pairwise monthKeyLt ((ledgerMonths plainLedger).map (fun e => (e.1, e.2.1)))
  ∧ (expenseTrendDataV2 plainLedger).length = min 6 (monthlyBreakdownV2 plainLedger).length :=
  ⟨by decide, (claim2_window.2 plainLedger (by decide)).2.2⟩
